import Mathlib

/-!
# Verification of the jrpc2 JSON-RPC 2.0 server library

Shallow embedding of the `bitwurx/jrpc2` Go sources.  The repository holds two
lineages of the same library:

* `server.go` — the `Server` type with `ValidateRequest`, `Call`,
  `HandleRequest`, `HandleBatch`, `ParseParams`, `RegisterRPC`,
  `Batch.MakeResponse`, `NewResponse` and the error constants declared at the
  top of that file (`MethodExistsCode = -32000`, `URLSchemeErrorCode = -32001`).
* `rpc.go` + `constants.go` — the `Service` type with `Call`, `Do` and
  `RPCHandler`, and the constants `NotImplementedCode = -32000`,
  `InvalidIDCode = -32001`, `InvalidMethodCode = -32002`.

Both are embedded below; the `Rpc` namespace holds the `rpc.go` lineage.

Modelling conventions:

* Decoded JSON values are the inductive `JValue`.  Go decodes JSON numbers
  into `float64`; they are modelled as exact rationals (`Rat`), and
  `math.Trunc(x) != x` becomes `q.den ≠ 1`.
* A Go `interface{}` holding `nil` (either JSON `null` or an absent member)
  is `Option.none`; in decoded positions the `JValue.null` constructor does
  not occur.
* `json.RawMessage` fields carry the decoded `JValue` of the raw bytes.
* Fallible Go code returns `GoResult`; the `panics` constructor records a Go
  runtime panic (failed type assertion, nil-pointer dereference).
* Go maps are association lists (`lookupKey` / `insertKey`).
* `http.Post` + response decoding inside `Server.Call` is abstracted by a
  `NetOracle` argument: the environment's answer for a given URL and outbound
  request object.
* Response bytes are `List Char`; the serializer mirrors `encoding/json`
  field order, `omitempty` behaviour and string escaping.  The digit-exact
  rendering of non-integral numbers is not reproduced (only its character
  classes matter here); integers render exactly.
-/

namespace Jrpc2

/-- A decoded JSON value (what a Go `interface{}` holds after
`json.Unmarshal`): null, bool, number (`float64`, modelled exactly),
string, array, or object. -/
inductive JValue where
  | null : JValue
  | bool (b : Bool) : JValue
  | num (q : Rat) : JValue
  | str (s : String) : JValue
  | arr (xs : List JValue) : JValue
  | obj (fs : List (String × JValue)) : JValue

/-- Result of running a piece of Go code: a value, a returned `error`,
or a runtime panic. -/
inductive GoResult (α : Type) where
  | ok (a : α) : GoResult α
  | err (msg : String) : GoResult α
  | panics (msg : String) : GoResult α
deriving DecidableEq

/-- `true` exactly on the `panics` outcome. -/
def GoResult.isPanics {α : Type} : GoResult α → Bool
  | .panics _ => true
  | _ => false

/-- Go map lookup on an association list (first binding of the key). -/
def lookupKey {α : Type} : List (String × α) → String → Option α
  | [], _ => none
  | (k, v) :: rest, key => if k = key then some v else lookupKey rest key

/-- Go map assignment on an association list: overwrite the binding if the
key is present, append it otherwise. -/
def insertKey {α : Type} : List (String × α) → String → α → List (String × α)
  | [], key, v => [(key, v)]
  | (k, w) :: rest, key, v =>
      if k = key then (key, v) :: rest else (k, w) :: insertKey rest key v

/-- Whether the first list is a prefix of the second. -/
def isPrefixCharList : List Char → List Char → Bool
  | [], _ => true
  | _ :: _, [] => false
  | c :: cs, d :: ds => if c = d then isPrefixCharList cs ds else false

/-- `strings.HasPrefix s pre` (Go): `s` begins with `pre`. -/
def goHasPrefix (s pre : String) : Bool := isPrefixCharList pre.data s.data

/-- `strings.ToLower` on one character.  Go lower-cases the full Unicode
range; the method names checked below are ASCII, which this covers. -/
def goToLowerChar (c : Char) : Char :=
  if 65 ≤ c.toNat ∧ c.toNat ≤ 90 then Char.ofNat (c.toNat + 32) else c

/-- `strings.ToLower` (Go). -/
def goToLower (s : String) : String := ⟨s.data.map goToLowerChar⟩

/-- `ErrorObject` (`server.go`): `code`, `message` and the optional `data`
member (`omitempty`).  The `ErrorCode`/`ErrorMsg` newtypes are plain
`Int`/`String` here; the `rpc.go` lineage declares the identical shape with
plain `int`/`string` fields. -/
structure ErrorObject where
  Code : Int
  Message : String
  Data : Option JValue

/-- `RequestObject` (`server.go`): `jsonrpc`, `method` (an `interface{}` —
any JSON value), raw `params`, and `id` (`none` = Go `nil`, i.e. JSON null
or an absent member). -/
structure RequestObject where
  Jsonrpc : String
  Method : JValue
  Params : JValue
  ID : Option JValue

-- Error codes (server.go)
def ParseErrorCode : Int := -32700
def InvalidRequestCode : Int := -32600
def MethodNotFoundCode : Int := -32601
def InvalidParamsCode : Int := -32602
def InternalErrorCode : Int := -32603
def MethodExistsCode : Int := -32000
def URLSchemeErrorCode : Int := -32001

-- Error messages (server.go)
def ParseErrorMsg : String := "Parse error"
def InvalidRequestMsg : String := "Invalid Request"
def MethodNotFoundMsg : String := "Method not found"
def InvalidParamsMsg : String := "Invalid params"
def InternalErrorMsg : String := "Internal error"
def ServerErrorMsg : String := "Server error"
def MethodExistsMsg : String := "Method exists"
def URLSchemeErrorMsg : String := "URL scheme error"

/-! ## JSON serialization (`encoding/json` behaviour used by `json.Marshal`) -/

/-- The characters of a string literal. -/
def lit (s : String) : List Char := s.data

/-- Decimal digit of `encoding/json` number output. -/
def digitChar (n : Nat) : Char :=
  match n with
  | 0 => '0' | 1 => '1' | 2 => '2' | 3 => '3' | 4 => '4'
  | 5 => '5' | 6 => '6' | 7 => '7' | 8 => '8' | _ => '9'

/-- Lower-case hex digit of a `\u00XX` escape. -/
def hexDigit (n : Nat) : Char :=
  match n with
  | 0 => '0' | 1 => '1' | 2 => '2' | 3 => '3' | 4 => '4'
  | 5 => '5' | 6 => '6' | 7 => '7' | 8 => '8' | 9 => '9'
  | 10 => 'a' | 11 => 'b' | 12 => 'c' | 13 => 'd' | 14 => 'e' | _ => 'f'

/-- Decimal digits of a natural number, most significant first.  The fuel
argument (always at least the value itself plus one) makes the recursion
structural. -/
def natCharsAux : Nat → Nat → List Char
  | 0, _ => []
  | fuel + 1, n =>
      if n < 10 then [digitChar n] else natCharsAux fuel (n / 10) ++ [digitChar (n % 10)]

/-- Decimal rendering of a natural number. -/
def natChars (n : Nat) : List Char := natCharsAux (n + 1) n

/-- Decimal rendering of an integer (with leading minus sign if negative). -/
def intChars (i : Int) : List Char :=
  if i < 0 then '-' :: natChars i.natAbs else natChars i.natAbs

/-- `encoding/json` escaping of one character inside a string literal:
quote, backslash, `\n`, `\r`, `\t`, other control characters as `\u00XX`,
and the HTML-sensitive `<`, `>`, `&` likewise escaped (Go's default
`SetEscapeHTML(true)`). -/
def escapeChar (c : Char) : List Char :=
  if c = '"' then ['\\', '"']
  else if c = '\\' then ['\\', '\\']
  else if c = '\n' then ['\\', 'n']
  else if c = '\r' then ['\\', 'r']
  else if c = '\t' then ['\\', 't']
  else if c.toNat < 32 ∨ c = '<' ∨ c = '>' ∨ c = '&' then
    ['\\', 'u', '0', '0', hexDigit (c.toNat / 16 % 16), hexDigit (c.toNat % 16)]
  else [c]

/-- Escape every character of a string body. -/
def escapeList : List Char → List Char
  | [] => []
  | c :: cs => escapeChar c ++ escapeList cs

/-- A JSON string literal: quotes around the escaped body. -/
def jstrChars (s : String) : List Char := '"' :: escapeList s.data ++ ['"']

mutual
/-- Serialization of a `JValue` as `encoding/json` renders the
corresponding Go value.  Non-integral numbers are rendered as
`num.den` rather than Go's shortest-round-trip decimal digits; no claim
below depends on those digits, only on the absence of control
characters, which matches `encoding/json` output. -/
def serJ : JValue → List Char
  | .null => ['n', 'u', 'l', 'l']
  | .bool b => if b then ['t', 'r', 'u', 'e'] else ['f', 'a', 'l', 's', 'e']
  | .num q => intChars q.num ++ (if q.den == 1 then [] else '.' :: natChars q.den)
  | .str s => jstrChars s
  | .arr xs => '[' :: serList xs ++ [']']
  | .obj fs => '\x7b' :: serFields fs ++ ['\x7d']

/-- Comma-separated serialization of array members. -/
def serList : List JValue → List Char
  | [] => []
  | [x] => serJ x
  | x :: y :: xs => serJ x ++ ',' :: serList (y :: xs)

/-- Comma-separated serialization of object members. -/
def serFields : List (String × JValue) → List Char
  | [] => []
  | [(k, v)] => jstrChars k ++ ':' :: serJ v
  | (k, v) :: f :: fs => (jstrChars k ++ ':' :: serJ v) ++ ',' :: serFields (f :: fs)
end

/-- The `data` member of a marshalled `ErrorObject`: omitted when `nil`
(`omitempty`). -/
def serDataPart : Option JValue → List Char
  | some v => lit (",\"data\":") ++ serJ v
  | none => []

/-- `json.Marshal` of an `ErrorObject`: `code`, `message`, then `data`
unless absent (`omitempty`). -/
def serErrorObject (e : ErrorObject) : List Char :=
  lit ("\x7b\"code\":") ++ intChars e.Code ++ lit (",\"message\":") ++ jstrChars e.Message ++
    serDataPart e.Data ++ ['\x7d']

/-- The `error` member of a marshalled `ResponseObject`: omitted when
`nil` (`omitempty`). -/
def serErrPart : Option ErrorObject → List Char
  | some e => lit (",\"error\":") ++ serErrorObject e
  | none => []

/-- The `result` member of a marshalled `ResponseObject`: omitted when
`nil` (`omitempty`). -/
def serResultPart : Option JValue → List Char
  | some v => lit (",\"result\":") ++ serJ v
  | none => []

/-- The `id` member value of a marshalled `ResponseObject`: `null` when
`nil` (no `omitempty` on this field). -/
def serIDPart : Option JValue → List Char
  | some v => serJ v
  | none => lit ("null")

/-- `json.Marshal` of a `ResponseObject` (`server.go`): `jsonrpc`, then
`error` and `result` each omitted when `nil` (`omitempty`), then `id`
(always present, `null` when `nil`). -/
def serResponseObject (result : Option JValue) (errObj : Option ErrorObject)
    (id : Option JValue) : List Char :=
  lit ("\x7b\"jsonrpc\":\"2.0\"") ++ serErrPart errObj ++ serResultPart result ++
    lit (",\"id\":") ++ serIDPart id ++ ['\x7d']

/-- `NewResponse` (`server.go`): the marshalled response object, newline
terminated iff the `nl` flag is set. -/
def NewResponse (result : Option JValue) (errObj : Option ErrorObject)
    (id : Option JValue) (nl : Bool) : List Char :=
  serResponseObject result errObj id ++ (if nl then ['\n'] else [])

/-! ## Batch (`server.go`) -/

/-- `Batch` (`server.go`): the collected response byte blobs. -/
structure Batch where
  Responses : List (List Char)

/-- `Batch.AddResponse`: append a response blob. -/
def Batch.AddResponse (b : Batch) (resp : List Char) : Batch :=
  ⟨b.Responses ++ [resp]⟩

/-- The member-joining loop of `Batch.MakeResponse`: each blob, with a
comma after every blob but the last. -/
def Batch.MakeResponseAux : List (List Char) → List Char
  | [] => []
  | [b] => b
  | b :: c :: rest => b ++ ',' :: Batch.MakeResponseAux (c :: rest)

/-- `Batch.MakeResponse` (`server.go`): `[`, the joined member blobs,
then `]` and a terminating newline. -/
def Batch.MakeResponse (b : Batch) : List Char :=
  '[' :: Batch.MakeResponseAux b.Responses ++ [']', '\n']

/-! ## Parameter resolution (`server.go`) -/

/-- The `Params` interface of `server.go` together with the
`encoding/json` decode behaviour of the concrete parameter structure:
`unmarshal` is `json.Unmarshal` of the raw params into the named-field
shape, `FromPositional` is the structure's positional-extraction method. -/
structure Params (P : Type) where
  unmarshal : JValue → Except String P
  FromPositional : List JValue → GoResult P

/-- Go-kind name used in `encoding/json` type-error strings. -/
def jsonKindName : JValue → String
  | .null => "null"
  | .bool _ => "bool"
  | .num _ => "number"
  | .str _ => "string"
  | .arr _ => "array"
  | .obj _ => "object"

/-- `json.Unmarshal` of the raw params into `[]interface{}` (the
`posParams` decode inside `ParseParams`): succeeds on an array (and on
JSON null, which leaves the empty slice untouched), fails with a type
error otherwise. -/
def unmarshalPositional : JValue → Except String (List JValue)
  | .arr xs => .ok xs
  | .null => .ok []
  | v => .error ("json: cannot unmarshal " ++ jsonKindName v ++
      " into Go value of type []interface \x7b\x7d")

/-- `ParseParams` (`server.go`): direct decode into the named shape
first; on failure re-decode the same bytes as `[]interface{}` and
delegate to `FromPositional`; either failure is reported as Invalid
Params carrying that failure's diagnostic string. -/
def ParseParams {P : Type} (pt : Params P) (params : JValue) :
    GoResult (Except ErrorObject P) :=
  match pt.unmarshal params with
  | .ok p => .ok (.ok p)
  | .error _ =>
    match unmarshalPositional params with
    | .error e2 => .ok (.error ⟨InvalidParamsCode, InvalidParamsMsg, some (.str e2)⟩)
    | .ok posParams =>
      match pt.FromPositional posParams with
      | .err e3 => .ok (.error ⟨InvalidParamsCode, InvalidParamsMsg, some (.str e3)⟩)
      | .panics m => .panics m
      | .ok p => .ok (.ok p)

/-- `RegisterRPCParams` (`server.go`): optional `Name` and `URL`
(Go `*string` fields, `none` = nil pointer). -/
structure RegisterRPCParams where
  Name : Option String
  URL : Option String

/-- Case-insensitive key lookup (Go matches exported struct field names
case-insensitively during `json.Unmarshal`). -/
def lookupFieldCI : List (String × JValue) → String → Option JValue
  | [], _ => none
  | (k, v) :: rest, key => if goToLower k = goToLower key then some v else lookupFieldCI rest key

/-- One exported field of `RegisterRPCParams` during `json.Unmarshal`:
`none` when absent or JSON null (pointer left/set nil), the string when a
JSON string, a type error otherwise. -/
def unmarshalStringField (fs : List (String × JValue)) (field : String) :
    Except String (Option String) :=
  match lookupFieldCI fs field with
  | none => .ok none
  | some .null => .ok none
  | some (.str s) => .ok (some s)
  | some v => .error ("json: cannot unmarshal " ++ jsonKindName v ++
      " into Go struct field RegisterRPCParams." ++ field ++ " of type string")

/-- `json.Unmarshal` of the raw params into `*RegisterRPCParams`:
succeeds on a JSON object (assigning the `Name`/`URL` fields) and on
JSON null (a no-op), fails with a type error otherwise. -/
def unmarshalRegisterRPCParams : JValue → Except String RegisterRPCParams
  | .null => .ok ⟨none, none⟩
  | .obj fs =>
    match unmarshalStringField fs ("Name") with
    | .error e => .error e
    | .ok name =>
      match unmarshalStringField fs ("URL") with
      | .error e => .error e
      | .ok url => .ok ⟨name, url⟩
  | v => .error ("json: cannot unmarshal " ++ jsonKindName v ++
      " into Go value of type jrpc2.RegisterRPCParams")

/-- `RegisterRPCParams.FromPositional` (`server.go`): exactly two
positional parameters are required; each is type-asserted to `string`
with no check, so a non-string element is a runtime panic, not an
error. -/
def RegisterRPCParams.FromPositional (params : List JValue) : GoResult RegisterRPCParams :=
  if params.length ≠ 2 then .err "register requires name and url parameters"
  else
    match params with
    | [.str name, .str url] => .ok ⟨some name, some url⟩
    | _ => .panics "interface conversion: interface \x7b\x7d is not string"

/-- The `Params` instance for `RegisterRPCParams`. -/
def registerParams : Params RegisterRPCParams :=
  ⟨unmarshalRegisterRPCParams, RegisterRPCParams.FromPositional⟩

/-! ## The `Server` lineage (`server.go`) -/

/-- A registered local handler: raw params to a `(result, error)` pair. -/
def Handler : Type := JValue → Option JValue × Option ErrorObject

/-- `Method` (`server.go`): proxy URL and/or local callable. -/
structure Method where
  URL : String
  Method : Option Handler

/-- `Server` (`server.go`). -/
structure Server where
  Host : String
  Route : String
  Methods : List (String × Method)
  Headers : List (String × String)

/-- A decoded `ResponseObject` returned by a remote endpoint during a
proxied call (`result`/`error` are `nil` when JSON null or absent). -/
structure RemoteResponse where
  Jsonrpc : String
  Error : Option ErrorObject
  Result : Option JValue
  ID : Option JValue

/-- Outcome of `http.Post` plus response decoding inside `Server.Call`. -/
inductive NetOutcome where
  | postError (msg : String) : NetOutcome
  | decodeError (msg : String) : NetOutcome
  | ok (resp : RemoteResponse) : NetOutcome

/-- The network environment: the answer for a POST of the outbound
request object to a URL. -/
def NetOracle : Type := String → RequestObject → NetOutcome

/-- `Server.ValidateRequest` (`server.go`): version must be exactly
`"2.0"`, then the method member must be a string, then the method must
not start with the (case-sensitive) prefix `"rpc."`. -/
def Server.ValidateRequest (_s : Server) (req : RequestObject) : Option ErrorObject :=
  if req.Jsonrpc ≠ "2.0" then
    some ⟨InvalidRequestCode, InvalidRequestMsg,
      some (.str ("jsonrpc request member must be exactly '2.0'"))⟩
  else
    match req.Method with
    | .str m =>
      if goHasPrefix m ("rpc.") then
        some ⟨InvalidRequestCode, InvalidRequestMsg,
          some (.str ("method cannot match the pattern rpc.*"))⟩
      else none
    | _ =>
      some ⟨InvalidRequestCode, InvalidRequestMsg,
        some (.str ("method name must be a string"))⟩

/-- `Server.Call` (`server.go`): type-assert the name to string, look it
up; a local callable wins over a URL; a proxy entry POSTs a synthetic
request (id `"1"`) and propagates the remote `result` or `error`; a
remote response with neither, a blank entry, transport failure or decode
failure all end in Internal Error. -/
def Server.Call (s : Server) (net : NetOracle) (name : JValue) (params : JValue) :
    GoResult (Option JValue × Option ErrorObject) :=
  match name with
  | .str nm =>
    match lookupKey s.Methods nm with
    | none => .ok (none, some ⟨MethodNotFoundCode, MethodNotFoundMsg, none⟩)
    | some m =>
      match m.Method with
      | some f => .ok (f params)
      | none =>
        if m.URL ≠ "" then
          match net m.URL ⟨"2.0", .str nm, params, some (.str ("1"))⟩ with
          | .postError e =>
              .ok (none, some ⟨InternalErrorCode, InternalErrorMsg, some (.str e)⟩)
          | .decodeError e =>
              .ok (none, some ⟨InternalErrorCode, InternalErrorMsg, some (.str e)⟩)
          | .ok resp =>
            match resp.Result with
            | some r => .ok (some r, none)
            | none =>
              match resp.Error with
              | some e => .ok (none, some e)
              | none =>
                  .ok (none, some ⟨InternalErrorCode, InternalErrorMsg,
                    some (.str ("Unable to call provided method"))⟩)
        else
          .ok (none, some ⟨InternalErrorCode, InternalErrorMsg,
            some (.str ("Unable to call provided method"))⟩)
  | _ => .panics "interface conversion: interface \x7b\x7d is not string"

/-- `Server.HandleRequest` (`server.go`): validation failure writes an
error response; a dispatch error writes an error response; a successful
dispatch writes a result response only when the request id is present.
Each written blob is newline terminated.  `none` = nothing written. -/
def Server.HandleRequest (s : Server) (net : NetOracle) (req : RequestObject) :
    GoResult (Option (List Char)) :=
  match s.ValidateRequest req with
  | some e => .ok (some (NewResponse none (some e) req.ID true))
  | none =>
    match s.Call net req.Method req.Params with
    | .ok (_, some e) => .ok (some (NewResponse none (some e) req.ID true))
    | .ok (result, none) =>
        if req.ID.isSome then .ok (some (NewResponse result none req.ID true))
        else .ok none
    | .err m => .err m
    | .panics m => .panics m

/-- One member of a batch inside `Server.HandleBatch`: same flow as
`HandleRequest` but rendered with the newline flag off; `none` = no
entry contributed (a successfully dispatched notification). -/
def Server.HandleBatchMember (s : Server) (net : NetOracle) (req : RequestObject) :
    Option (List Char) :=
  match s.ValidateRequest req with
  | some e => some (NewResponse none (some e) req.ID false)
  | none =>
    match s.Call net req.Method req.Params with
    | .ok (_, some e) => some (NewResponse none (some e) req.ID false)
    | .ok (result, none) =>
        if req.ID.isSome then some (NewResponse result none req.ID false)
        else none
    | .err _ => none
    | .panics _ => none

/-- `Server.HandleBatch` (`server.go`) as the list of blobs written to
the response writer: an empty batch writes a single top-level Invalid
Request response (and the function does not return early); then the
member responses, collected from per-member goroutines, are rendered as
one batch array when at least one member contributed an entry.  The
goroutine completion order is scheduler-dependent; it is modelled as
submission order (the empty-batch claim below involves no members). -/
def Server.HandleBatch (s : Server) (net : NetOracle) (reqs : List RequestObject) :
    List (List Char) :=
  (if reqs.length < 1 then
    [NewResponse none
      (some ⟨InvalidRequestCode, InvalidRequestMsg,
        some (.str ("Batch must contain at least one request"))⟩) none true]
   else []) ++
  (let members := reqs.filterMap (s.HandleBatchMember net)
   if members.length > 0 then [Batch.MakeResponse ⟨members⟩] else [])

/-- `Server.RegisterRPC` (`server.go`): parse the params (named or
positional), require an `http://`/`https://` URL scheme, refuse an
already-registered name with Method Exists, otherwise insert a proxy
entry and return `"success"`.  The Go code dereferences the `URL` and
`Name` pointers without nil checks; a missing field is a runtime panic.
The (unchanged or extended) methods map is returned alongside the
`(result, error)` pair since Go mutates `s.Methods` in place. -/
def Server.RegisterRPC (s : Server) (params : JValue) :
    GoResult ((Option JValue × Option ErrorObject) × List (String × Method)) :=
  match ParseParams registerParams params with
  | .panics m => .panics m
  | .err m => .err m
  | .ok (.error e) => .ok ((none, some e), s.Methods)
  | .ok (.ok p) =>
    match p.URL with
    | none => .panics "runtime error: invalid memory address or nil pointer dereference"
    | some url =>
      if ¬ (goHasPrefix url ("http://") || goHasPrefix url ("https://")) then
        .ok ((none, some ⟨URLSchemeErrorCode, URLSchemeErrorMsg,
          some (.str ("url scheme must match http?s://"))⟩), s.Methods)
      else
        match p.Name with
        | none => .panics "runtime error: invalid memory address or nil pointer dereference"
        | some name =>
          if (lookupKey s.Methods name).isSome then
            .ok ((none, some ⟨MethodExistsCode, MethodExistsMsg, none⟩), s.Methods)
          else
            .ok ((some (.str ("success")), none), insertKey s.Methods name ⟨url, none⟩)

/-! ## The `Service` lineage (`rpc.go` + `constants.go`) -/

namespace Rpc

/-- `JSONRPCVersion` (`constants.go`). -/
def JSONRPCVersion : String := "2.0"

-- Error codes (constants.go)
def ParseErrorCode : Int := -32700
def InvalidRequestCode : Int := -32600
def MethodNotFoundCode : Int := -32601
def InvalidParamsCode : Int := -32602
def InternalErrorCode : Int := -32603
def NotImplementedCode : Int := -32000
def InvalidIDCode : Int := -32001
def InvalidMethodCode : Int := -32002

-- Error messages (constants.go)
def ParseErrorMessage : String := "Parse error"
def InvalidRequestMessage : String := "Invalid Request"
def MethodNotFoundMessage : String := "Method not found"
def InvalidParamsMessage : String := "Invalid params"
def InternalErrorMessage : String := "Internal error"
def NotImplementedMessage : String := "Not implemented"
def InvalidIDMessage : String := "Invalid ID"
def InvalidMethodMessage : String := "Invalid method"

/-- `RequestObject` of this lineage: `method` is a `string` field (a
non-string method member fails during decode, before `Do`'s
post-decode phase modelled here).  `ID` is an `interface{}` (`none` = Go
`nil`: JSON null or absent); `IsNotification` is the internal helper
flag, zero-valued `false` after decode. -/
structure RequestObject where
  Jsonrpc : String
  Method : String
  Params : JValue
  ID : Option JValue
  IsNotification : Bool := false

/-- `ResponseObject` of this lineage.  `ID` is set by `Do` to a pointer
to the request's id (`none` = still the nil interface); the two internal
helper fields are not serialized. -/
structure ResponseObject where
  Jsonrpc : String
  Error : Option ErrorObject
  Result : Option JValue
  ID : Option (Option JValue)
  IsNotification : Bool
  HTTPResponseStatusCode : Int

/-- `Method` of this lineage: just the callable (`none` = nil function). -/
structure Method where
  Method : Option Handler

/-- `Service` (`rpc.go` lineage). -/
structure Service where
  Host : String
  Route : String
  Methods : List (String × Method)
  Headers : List (String × String)

/-- `Service.Call` (`rpc.go`): reject any method whose lower-cased name
starts with `"rpc."` before the registry lookup; then Method Not Found
on a missing name, Internal Error on a nil callable, otherwise invoke
the handler. -/
def Service.Call (s : Service) (name : String) (params : JValue) :
    Option JValue × Option ErrorObject :=
  if goHasPrefix (goToLower name) ("rpc.") then
    (none, some ⟨InvalidRequestCode, InvalidRequestMessage,
      some (.str ("method cannot match the pattern rpc.*"))⟩)
  else
    match lookupKey s.Methods name with
    | none => (none, some ⟨MethodNotFoundCode, MethodNotFoundMessage, none⟩)
    | some m =>
      match m.Method with
      | none => (none, some ⟨InternalErrorCode, InternalErrorMessage,
          some (.str ("unable to call provided method"))⟩)
      | some f => f params

/-- The `id` member type switch inside `Service.Do`: a `float64` passes
iff it has no fractional part (`math.Trunc(x) == x`), a string or the
nil interface passes, everything else (bool, array, object) is
invalid. -/
def validIDType : Option JValue → Bool
  | some (.num q) => q.den == 1
  | some (.str _) => true
  | none => true
  | _ => false

/-- The post-decode phase of `Service.Do` (`rpc.go` lines 171-223): the
HTTP method/header checks, body read and JSON decode precede this and
are not modelled; given the decoded request object it validates the
version member, then the id type, records the response id and the
notification flag, and dispatches through `Service.Call`, always storing
the call's result and, when present, its error. -/
def Service.DoDecoded (s : Service) (reqObj : RequestObject) : ResponseObject :=
  let respObj : ResponseObject :=
    { Jsonrpc := JSONRPCVersion, Error := none, Result := none, ID := none,
      IsNotification := false, HTTPResponseStatusCode := 200 }
  if reqObj.Jsonrpc ≠ JSONRPCVersion then
    { respObj with Error := some ⟨InvalidRequestCode, InvalidRequestMessage,
        some (.str ("jsonrpc request member must be exactly '2.0'"))⟩ }
  else if ¬ validIDType reqObj.ID then
    { respObj with Error := some ⟨InvalidIDCode, InvalidIDMessage,
        some (.str ("ID must be one of string, number or undefined"))⟩ }
  else
    let respObj := { respObj with ID := some reqObj.ID }
    let respObj := { respObj with IsNotification := reqObj.ID.isNone }
    let callResult := s.Call reqObj.Method reqObj.Params
    let respObj := { respObj with Result := callResult.1 }
    match callResult.2 with
    | some e => { respObj with Error := some e }
    | none => respObj

/-- `Service.RPCHandler` (`rpc.go`): run `Do`; a notification sends no
response body, only HTTP 204; otherwise the marshalled response object
(represented here by the object itself) is written with the response's
status code. -/
def Service.RPCHandlerDecoded (s : Service) (reqObj : RequestObject) :
    Int × Option ResponseObject :=
  let respObj := s.DoDecoded reqObj
  if respObj.IsNotification then (204, none)
  else (respObj.HTTPResponseStatusCode, some respObj)

end Rpc

/-! ## Concrete fixtures used by counterexamples and witnesses -/

/-- A server with an empty registry. -/
def srvEmpty : Server := ⟨"", "", [], []⟩

/-- A handler that always reports an internal error. -/
def errHandler : Handler := fun _ => (none, some ⟨InternalErrorCode, InternalErrorMsg, none⟩)

/-- A server whose method `"m"` is a local handler that always fails. -/
def srvErr : Server := ⟨"", "", [("m", ⟨"", some errHandler⟩)], []⟩

/-- A server whose method `"m"` is a proxy entry for `"http://x"`. -/
def srvProxy : Server := ⟨"", "", [("m", ⟨"http://x", none⟩)], []⟩

/-- A server whose method `"m"` is a local handler that always succeeds. -/
def srvOk : Server := ⟨"", "", [("m", ⟨"", some (fun _ => (some (.str ("r")), none))⟩)], []⟩

/-- A server with the method name `"add"` already registered. -/
def srvAdd : Server := ⟨"", "", [("add", ⟨"http://orig", none⟩)], []⟩

/-- A network environment in which every POST fails. -/
def netDown : NetOracle := fun _ _ => .postError "connection refused"

/-- A network environment whose remote answers with result null and no
error member. -/
def netNullResult : NetOracle := fun _ _ => .ok ⟨"2.0", none, none, some (.str ("1"))⟩

/-- A service with an empty registry. -/
def svcEmpty : Rpc.Service := ⟨"", "", [], []⟩

/-- A service in which the name `"rpc.x"` is registered (to show the
prefix rejection fires regardless of registration). -/
def svcWithRpcX : Rpc.Service :=
  ⟨"", "", [("rpc.x", ⟨some (fun _ => (some (.str ("hit")), none))⟩)], []⟩

/-- A service whose method `"m"` is a handler that always fails. -/
def svcErr : Rpc.Service :=
  ⟨"", "", [("m", ⟨some (fun _ => (none, some ⟨Rpc.InternalErrorCode, Rpc.InternalErrorMessage, none⟩))⟩)], []⟩

/-- The id shapes named by the claim about id validation: a float with a
fractional part, an array, or an object (this predicate follows the
claim's wording; the code's own switch is `Rpc.validIDType`). -/
def FractionalArrayOrObjectID : Option JValue → Bool
  | some (.num q) => !(q.den == 1)
  | some (.arr _) => true
  | some (.obj _) => true
  | _ => false

/-! ## Helper lemmas: the serializer emits no newline characters -/

theorem digitChar_ne_nl (n : Nat) : digitChar n ≠ '\n' := by
  unfold digitChar; split <;> decide

theorem hexDigit_ne_nl (n : Nat) : hexDigit n ≠ '\n' := by
  unfold hexDigit; split <;> decide

theorem natCharsAux_no_nl (fuel n : Nat) : '\n' ∉ natCharsAux fuel n := by
  induction fuel generalizing n with
  | zero => simp [natCharsAux]
  | succ f ih =>
    simp only [natCharsAux]
    split
    · intro h
      simp only [List.mem_cons, List.not_mem_nil, or_false] at h
      exact digitChar_ne_nl _ h.symm
    · intro h
      rcases List.mem_append.mp h with h1 | h2
      · exact ih _ h1
      · simp only [List.mem_cons, List.not_mem_nil, or_false] at h2
        exact digitChar_ne_nl _ h2.symm

theorem natChars_no_nl (n : Nat) : '\n' ∉ natChars n := natCharsAux_no_nl _ _

theorem intChars_no_nl (i : Int) : '\n' ∉ intChars i := by
  unfold intChars
  split
  · intro h
    rcases List.mem_cons.mp h with h1 | h2
    · exact absurd h1 (by decide)
    · exact natChars_no_nl _ h2
  · exact natChars_no_nl _

theorem escapeChar_no_nl (c : Char) : '\n' ∉ escapeChar c := by
  unfold escapeChar
  repeat' split
  · decide
  · decide
  · decide
  · decide
  · decide
  · intro h
    simp only [List.mem_cons, List.not_mem_nil, or_false] at h
    rcases h with h | h | h | h | h | h
    all_goals first
      | exact absurd h.symm (by decide)
      | exact absurd h.symm (hexDigit_ne_nl _)
  · intro h
    simp only [List.mem_cons, List.not_mem_nil, or_false] at h
    next h3 _ _ _ => exact h3 h.symm

theorem escapeList_no_nl (cs : List Char) : '\n' ∉ escapeList cs := by
  induction cs with
  | nil => simp [escapeList]
  | cons c cs ih =>
    intro h
    rcases List.mem_append.mp h with h1 | h2
    · exact escapeChar_no_nl c h1
    · exact ih h2

theorem jstrChars_no_nl (s : String) : '\n' ∉ jstrChars s := by
  intro h
  rcases List.mem_cons.mp h with h1 | h2
  · exact absurd h1 (by decide)
  · rcases List.mem_append.mp h2 with h3 | h4
    · exact escapeList_no_nl _ h3
    · simp at h4

mutual
theorem serJ_no_nl : (v : JValue) → '\n' ∈ serJ v → False
  | .null, h => by simp [serJ] at h
  | .bool b, h => by cases b <;> simp [serJ] at h
  | .num q, h => by
    simp only [serJ] at h
    rcases List.mem_append.mp h with h1 | h2
    · exact intChars_no_nl _ h1
    · split at h2
      · simp at h2
      · rcases List.mem_cons.mp h2 with h3 | h4
        · exact absurd h3 (by decide)
        · exact natChars_no_nl _ h4
  | .str s, h => jstrChars_no_nl s (by simpa [serJ] using h)
  | .arr xs, h => by
    simp only [serJ] at h
    rcases List.mem_cons.mp h with h1 | h2
    · exact absurd h1 (by decide)
    · rcases List.mem_append.mp h2 with h3 | h4
      · exact serList_no_nl xs h3
      · simp at h4
  | .obj fs, h => by
    simp only [serJ] at h
    rcases List.mem_cons.mp h with h1 | h2
    · exact absurd h1 (by decide)
    · rcases List.mem_append.mp h2 with h3 | h4
      · exact serFields_no_nl fs h3
      · simp at h4

theorem serList_no_nl : (xs : List JValue) → '\n' ∈ serList xs → False
  | [], h => by simp [serList] at h
  | [x], h => serJ_no_nl x (by simpa [serList] using h)
  | x :: y :: xs, h => by
    simp only [serList] at h
    rcases List.mem_append.mp h with h1 | h2
    · exact serJ_no_nl x h1
    · rcases List.mem_cons.mp h2 with h3 | h4
      · exact absurd h3 (by decide)
      · exact serList_no_nl (y :: xs) h4

theorem serFields_no_nl : (fs : List (String × JValue)) → '\n' ∈ serFields fs → False
  | [], h => by simp [serFields] at h
  | [(k, v)], h => by
    simp only [serFields] at h
    rcases List.mem_append.mp h with h1 | h2
    · exact jstrChars_no_nl k h1
    · rcases List.mem_cons.mp h2 with h3 | h4
      · exact absurd h3 (by decide)
      · exact serJ_no_nl v h4
  | (k, v) :: f :: fs, h => by
    simp only [serFields] at h
    rcases List.mem_append.mp h with h1 | h2
    · rcases List.mem_append.mp h1 with h3 | h4
      · exact jstrChars_no_nl k h3
      · rcases List.mem_cons.mp h4 with h5 | h6
        · exact absurd h5 (by decide)
        · exact serJ_no_nl v h6
    · rcases List.mem_cons.mp h2 with h3 | h4
      · exact absurd h3 (by decide)
      · exact serFields_no_nl (f :: fs) h4
end

theorem serDataPart_no_nl (d : Option JValue) : '\n' ∉ serDataPart d := by
  cases d with
  | none => simp [serDataPart]
  | some v =>
    intro h
    rcases List.mem_append.mp h with h1 | h2
    · exact absurd h1 (by decide)
    · exact serJ_no_nl v h2

theorem serErrorObject_no_nl (e : ErrorObject) : '\n' ∉ serErrorObject e := by
  intro h
  unfold serErrorObject at h
  rcases List.mem_append.mp h with h1 | h2
  · rcases List.mem_append.mp h1 with h3 | h4
    · rcases List.mem_append.mp h3 with h5 | h6
      · rcases List.mem_append.mp h5 with h7 | h8
        · rcases List.mem_append.mp h7 with h9 | h10
          · exact absurd h9 (by decide)
          · exact intChars_no_nl _ h10
        · exact absurd h8 (by decide)
      · exact jstrChars_no_nl _ h6
    · exact serDataPart_no_nl _ h4
  · exact absurd h2 (by decide)

theorem serErrPart_no_nl (errObj : Option ErrorObject) : '\n' ∉ serErrPart errObj := by
  cases errObj with
  | none => simp [serErrPart]
  | some e =>
    intro h
    rcases List.mem_append.mp h with h1 | h2
    · exact absurd h1 (by decide)
    · exact serErrorObject_no_nl e h2

theorem serResultPart_no_nl (result : Option JValue) : '\n' ∉ serResultPart result := by
  cases result with
  | none => simp [serResultPart]
  | some v =>
    intro h
    rcases List.mem_append.mp h with h1 | h2
    · exact absurd h1 (by decide)
    · exact serJ_no_nl v h2

theorem serIDPart_no_nl (id : Option JValue) : '\n' ∉ serIDPart id := by
  cases id with
  | none => intro h; exact absurd h (by decide)
  | some v => exact serJ_no_nl v

theorem serResponseObject_no_nl (result : Option JValue) (errObj : Option ErrorObject)
    (id : Option JValue) : '\n' ∉ serResponseObject result errObj id := by
  intro h
  unfold serResponseObject at h
  rcases List.mem_append.mp h with h1 | h2
  · rcases List.mem_append.mp h1 with h3 | h4
    · rcases List.mem_append.mp h3 with h5 | h6
      · rcases List.mem_append.mp h5 with h7 | h8
        · rcases List.mem_append.mp h7 with h9 | h10
          · exact absurd h9 (by decide)
          · exact serErrPart_no_nl _ h10
        · exact serResultPart_no_nl _ h8
      · exact absurd h6 (by decide)
    · exact serIDPart_no_nl _ h4
  · exact absurd h2 (by decide)

/-! ## Claims -/

/-- C3: `ValidateRequest` is a pure function of the request (it is a
Lean function of the request alone — the receiver is unused) returning
no error or exactly one `ErrorObject`, in this precedence order:
version not `"2.0"` gives Invalid Request with the version diagnostic;
then a non-string method gives Invalid Request with
"method name must be a string"; then a method matching the `rpc.`
prefix gives Invalid Request with
"method cannot match the pattern rpc.*"; otherwise no error. -/
theorem C3_ValidateRequest_precedence (s : Server) (req : RequestObject) :
    (req.Jsonrpc ≠ "2.0" →
      s.ValidateRequest req = some ⟨InvalidRequestCode, InvalidRequestMsg,
        some (.str ("jsonrpc request member must be exactly '2.0'"))⟩) ∧
    (req.Jsonrpc = "2.0" → (∀ m, req.Method ≠ JValue.str m) →
      s.ValidateRequest req = some ⟨InvalidRequestCode, InvalidRequestMsg,
        some (.str ("method name must be a string"))⟩) ∧
    (∀ m, req.Jsonrpc = "2.0" → req.Method = JValue.str m →
      goHasPrefix m ("rpc.") = true →
      s.ValidateRequest req = some ⟨InvalidRequestCode, InvalidRequestMsg,
        some (.str ("method cannot match the pattern rpc.*"))⟩) ∧
    (∀ m, req.Jsonrpc = "2.0" → req.Method = JValue.str m →
      goHasPrefix m ("rpc.") = false →
      s.ValidateRequest req = none) := by
  obtain ⟨ver, meth, prms, id⟩ := req
  refine ⟨?_, ?_, ?_, ?_⟩
  · intro hv
    simp only [Server.ValidateRequest, if_pos hv]
  · intro hv hm
    replace hv : ver = "2.0" := hv
    cases meth with
    | str m => exact absurd rfl (hm m)
    | null => simp [Server.ValidateRequest, hv]
    | bool b => simp [Server.ValidateRequest, hv]
    | num q => simp [Server.ValidateRequest, hv]
    | arr xs => simp [Server.ValidateRequest, hv]
    | obj fs => simp [Server.ValidateRequest, hv]
  · intro m hv hm hpre
    replace hv : ver = "2.0" := hv
    cases hm
    simp [Server.ValidateRequest, hv, hpre]
  · intro m hv hm hpre
    replace hv : ver = "2.0" := hv
    cases hm
    simp [Server.ValidateRequest, hv, hpre]

/-- C3 witness: the four branches of `ValidateRequest` at concrete
requests. -/
theorem C3_witness :
    (srvEmpty.ValidateRequest ⟨"1.0", .str ("a"), .null, none⟩ =
      some ⟨InvalidRequestCode, InvalidRequestMsg,
        some (.str ("jsonrpc request member must be exactly '2.0'"))⟩) ∧
    (srvEmpty.ValidateRequest ⟨"2.0", .num 3, .null, none⟩ =
      some ⟨InvalidRequestCode, InvalidRequestMsg,
        some (.str ("method name must be a string"))⟩) ∧
    (srvEmpty.ValidateRequest ⟨"2.0", .str ("rpc.x"), .null, none⟩ =
      some ⟨InvalidRequestCode, InvalidRequestMsg,
        some (.str ("method cannot match the pattern rpc.*"))⟩) ∧
    (srvEmpty.ValidateRequest ⟨"2.0", .str ("sum"), .null, none⟩ = none) := by
  refine ⟨?_, ?_, ?_, ?_⟩
  · exact (C3_ValidateRequest_precedence srvEmpty _).1 (by decide)
  · exact (C3_ValidateRequest_precedence srvEmpty _).2.1 rfl
      (fun m h => JValue.noConfusion h)
  · exact (C3_ValidateRequest_precedence srvEmpty _).2.2.1 ("rpc.x") rfl rfl rfl
  · exact (C3_ValidateRequest_precedence srvEmpty _).2.2.2 ("sum") rfl rfl rfl

/-- C2 counterexample: the method `"RPC.foo"` begins with `"rpc."` under
a case-insensitive comparison, yet `server.go`'s `ValidateRequest`
(whose prefix check is case-sensitive) reports no error at all, and the
full `HandleRequest` path answers Method Not Found (-32601), not
Invalid Request (-32600): validation/dispatch does not return the
claimed error for every case-insensitive match. -/
theorem C2_counterexample :
    (srvEmpty.ValidateRequest ⟨"2.0", .str ("RPC.foo"), .null, some (.str ("1"))⟩ = none) ∧
    (srvEmpty.HandleRequest netDown ⟨"2.0", .str ("RPC.foo"), .null, some (.str ("1"))⟩ =
      .ok (some (NewResponse none (some ⟨MethodNotFoundCode, MethodNotFoundMsg, none⟩)
        (some (.str ("1"))) true))) ∧
    MethodNotFoundCode ≠ InvalidRequestCode := by
  refine ⟨rfl, rfl, by decide⟩

/-- C2 amended: `rpc.go`'s `Service.Call` rejects any method whose
lower-cased name begins with `"rpc."` with Invalid Request (-32600,
data "method cannot match the pattern rpc.*") before the registry
lookup, so registration is irrelevant; `server.go`'s `ValidateRequest`
performs the same rejection only case-sensitively (exact prefix
`"rpc."`), so differently-cased prefixes pass validation there. -/
theorem C2_amended :
    (∀ (s : Rpc.Service) (name : String) (params : JValue),
      goHasPrefix (goToLower name) ("rpc.") = true →
      s.Call name params =
        (none, some ⟨Rpc.InvalidRequestCode, Rpc.InvalidRequestMessage,
          some (.str ("method cannot match the pattern rpc.*"))⟩)) ∧
    (∀ (s : Server) (req : RequestObject) (m : String),
      req.Jsonrpc = "2.0" → req.Method = JValue.str m →
      goHasPrefix m ("rpc.") = true →
      s.ValidateRequest req = some ⟨InvalidRequestCode, InvalidRequestMsg,
        some (.str ("method cannot match the pattern rpc.*"))⟩) := by
  constructor
  · intro s name params hpre
    simp only [Rpc.Service.Call, if_pos hpre]
  · intro s req m hv hm hpre
    obtain ⟨ver, meth, prms, id⟩ := req
    replace hv : ver = "2.0" := hv
    cases hm
    simp [Server.ValidateRequest, hv, hpre]

/-- C2 witness: `Service.Call` rejects `"RPC.x"` with Invalid Request
even on a service where the name `"rpc.x"` is registered, and
`ValidateRequest` rejects the exact-case prefix `"rpc.x"`. -/
theorem C2_witness :
    (svcWithRpcX.Call ("RPC.x") .null =
      (none, some ⟨Rpc.InvalidRequestCode, Rpc.InvalidRequestMessage,
        some (.str ("method cannot match the pattern rpc.*"))⟩)) ∧
    (srvEmpty.ValidateRequest ⟨"2.0", .str ("rpc.x"), .null, none⟩ =
      some ⟨InvalidRequestCode, InvalidRequestMsg,
        some (.str ("method cannot match the pattern rpc.*"))⟩) :=
  ⟨C2_amended.1 svcWithRpcX ("RPC.x") .null rfl,
   C2_amended.2 srvEmpty ⟨"2.0", .str ("rpc.x"), .null, none⟩ ("rpc.x") rfl rfl rfl⟩

/-- C1 counterexample: a notification (id absent) whose handler returns
an `ErrorObject` — `server.go`'s `HandleRequest` writes an error
response body instead of suppressing it. -/
theorem C1_counterexample :
    (srvErr.HandleRequest netDown ⟨"2.0", .str ("m"), .null, none⟩ =
      .ok (some (NewResponse none (some ⟨InternalErrorCode, InternalErrorMsg, none⟩)
        none true))) ∧
    srvErr.HandleRequest netDown ⟨"2.0", .str ("m"), .null, none⟩ ≠ .ok none :=
  ⟨rfl, fun h => Option.noConfusion (GoResult.ok.inj h)⟩

/-- C1 amended: `server.go`'s `HandleRequest` suppresses the response
only for a successfully dispatched notification; when validation fails
or the handler fails it writes an error response even though the
request was a notification.  The `rpc.go` handler path (`RPCHandler`)
does suppress the response body for every notification that reaches
dispatch, answering HTTP 204 whether the dispatch succeeded or
failed. -/
theorem C1_amended :
    (∀ (s : Server) (net : NetOracle) (req : RequestObject) (result : Option JValue),
      s.ValidateRequest req = none →
      s.Call net req.Method req.Params = .ok (result, none) →
      req.ID = none →
      s.HandleRequest net req = .ok none) ∧
    (∀ (s : Server) (net : NetOracle) (req : RequestObject) (e : ErrorObject),
      s.ValidateRequest req = some e →
      req.ID = none →
      s.HandleRequest net req = .ok (some (NewResponse none (some e) none true))) ∧
    (∀ (s : Server) (net : NetOracle) (req : RequestObject)
        (r : Option JValue) (e : ErrorObject),
      s.ValidateRequest req = none →
      s.Call net req.Method req.Params = .ok (r, some e) →
      req.ID = none →
      s.HandleRequest net req = .ok (some (NewResponse none (some e) none true))) ∧
    (∀ (s : Rpc.Service) (req : Rpc.RequestObject),
      req.Jsonrpc = "2.0" →
      req.ID = none →
      s.RPCHandlerDecoded req = (204, none)) := by
  refine ⟨?_, ?_, ?_, ?_⟩
  · intro s net req result hval hcall hid
    simp only [Server.HandleRequest, hval, hcall, hid, Option.isSome_none,
      Bool.false_eq_true, if_false]
  · intro s net req e hval hid
    simp only [Server.HandleRequest, hval, hid]
  · intro s net req r e hval hcall hid
    simp only [Server.HandleRequest, hval, hcall, hid]
  · intro s req hv hid
    obtain ⟨ver, meth, prms, id, notif⟩ := req
    replace hv : ver = "2.0" := hv
    replace hid : id = none := hid
    subst hv hid
    rcases hc : s.Call meth prms with ⟨r, e⟩
    cases e <;>
      simp [Rpc.Service.RPCHandlerDecoded, Rpc.Service.DoDecoded, hc,
        Rpc.validIDType, Rpc.JSONRPCVersion]

/-- C1 witness: the four amended behaviours at concrete servers — a
successful notification is suppressed, a validation-failing
notification and a handler-failing notification both still produce a
body on the `server.go` path, and the `rpc.go` path answers 204 with
no body for a failing notification. -/
theorem C1_witness :
    (srvOk.HandleRequest netDown ⟨"2.0", .str ("m"), .null, none⟩ = .ok none) ∧
    (srvEmpty.HandleRequest netDown ⟨"1.0", .str ("m"), .null, none⟩ =
      .ok (some (NewResponse none (some ⟨InvalidRequestCode, InvalidRequestMsg,
        some (.str ("jsonrpc request member must be exactly '2.0'"))⟩)
        none true))) ∧
    (srvErr.HandleRequest netDown ⟨"2.0", .str ("m"), .null, none⟩ =
      .ok (some (NewResponse none (some ⟨InternalErrorCode, InternalErrorMsg, none⟩)
        none true))) ∧
    (svcErr.RPCHandlerDecoded ⟨"2.0", "m", .null, none, false⟩ = (204, none)) :=
  ⟨C1_amended.1 srvOk netDown ⟨"2.0", .str ("m"), .null, none⟩ (some (.str ("r"))) rfl rfl rfl,
   C1_amended.2.1 srvEmpty netDown ⟨"1.0", .str ("m"), .null, none⟩
     ⟨InvalidRequestCode, InvalidRequestMsg,
       some (.str ("jsonrpc request member must be exactly '2.0'"))⟩ rfl rfl,
   C1_amended.2.2.1 srvErr netDown ⟨"2.0", .str ("m"), .null, none⟩ none
     ⟨InternalErrorCode, InternalErrorMsg, none⟩ rfl rfl rfl,
   C1_amended.2.2.2 svcErr ⟨"2.0", "m", .null, none, false⟩ rfl rfl⟩

/-- C4 counterexample: a request whose id is an array (one of the
claimed shapes) but whose version member is not `"2.0"` — the version
check precedes the id switch in `Service.Do`, so the response is
Invalid Request (-32600), not the claimed ID-type error (-32001). -/
theorem C4_counterexample :
    ((svcEmpty.DoDecoded ⟨"1.0", "m", .null, some (.arr []), false⟩).Error =
      some ⟨Rpc.InvalidRequestCode, Rpc.InvalidRequestMessage,
        some (.str ("jsonrpc request member must be exactly '2.0'"))⟩) ∧
    Rpc.InvalidRequestCode ≠ Rpc.InvalidIDCode :=
  ⟨rfl, by decide⟩

/-- C4 amended: for every request that passes the version check
(`jsonrpc = "2.0"`) and whose id member is present but is a float with
a fractional part, an array, or an object, `Service.Do` answers the
ID-type error (Invalid ID, code -32001, data "ID must be one of string,
number or undefined") with the response id left unset — and it does so
for every service whatever its registry, so the request is never
dispatched to a handler (`Call` is not invoked). -/
theorem C4_amended (s : Rpc.Service) (req : Rpc.RequestObject) :
    req.Jsonrpc = "2.0" →
    FractionalArrayOrObjectID req.ID = true →
    s.DoDecoded req =
      { Jsonrpc := "2.0",
        Error := some ⟨Rpc.InvalidIDCode, Rpc.InvalidIDMessage,
          some (.str ("ID must be one of string, number or undefined"))⟩,
        Result := none, ID := none, IsNotification := false,
        HTTPResponseStatusCode := 200 } := by
  intro hv hbad
  obtain ⟨ver, meth, prms, id, notif⟩ := req
  replace hv : ver = "2.0" := hv
  replace hbad : FractionalArrayOrObjectID id = true := hbad
  subst hv
  have hinv : Rpc.validIDType id = false := by
    cases id with
    | none => exact absurd hbad (by decide)
    | some v =>
      cases v with
      | num q =>
        simp only [FractionalArrayOrObjectID, Bool.not_eq_eq_eq_not, Bool.not_true] at hbad
        simp [Rpc.validIDType, hbad]
      | arr xs => simp [Rpc.validIDType]
      | obj fs => simp [Rpc.validIDType]
      | null => exact absurd hbad (by decide)
      | bool b => exact absurd hbad (by simp [FractionalArrayOrObjectID])
      | str t => exact absurd hbad (by simp [FractionalArrayOrObjectID])
  simp [Rpc.Service.DoDecoded, Rpc.JSONRPCVersion, hinv]

/-- C4 witness: an object id and a fractional float id both produce the
ID-type error on a concrete service. -/
theorem C4_witness :
    (svcEmpty.DoDecoded ⟨"2.0", "m", .null, some (.obj []), false⟩ =
      { Jsonrpc := "2.0",
        Error := some ⟨Rpc.InvalidIDCode, Rpc.InvalidIDMessage,
          some (.str ("ID must be one of string, number or undefined"))⟩,
        Result := none, ID := none, IsNotification := false,
        HTTPResponseStatusCode := 200 }) ∧
    (svcErr.DoDecoded ⟨"2.0", "m", .null, some (.num (mkRat 3 2)), false⟩ =
      { Jsonrpc := "2.0",
        Error := some ⟨Rpc.InvalidIDCode, Rpc.InvalidIDMessage,
          some (.str ("ID must be one of string, number or undefined"))⟩,
        Result := none, ID := none, IsNotification := false,
        HTTPResponseStatusCode := 200 }) :=
  ⟨C4_amended svcEmpty ⟨"2.0", "m", .null, some (.obj []), false⟩ rfl rfl,
   C4_amended svcErr ⟨"2.0", "m", .null, some (.num (mkRat 3 2)), false⟩ rfl (by decide)⟩

/-- C5: a second registration of an already-present name through
`RegisterRPC` — with well-formed params (the parse succeeded and the
URL has an `http://`/`https://` scheme, the checks that precede the
uniqueness check) — returns the Method Exists error (-32000) and leaves
the methods map unchanged, so a lookup of the name still resolves to
the originally registered entry. -/
theorem C5_RegisterRPC_duplicate (s : Server) (params : JValue)
    (p : RegisterRPCParams) (name url : String) (m : Method) :
    ParseParams registerParams params = .ok (.ok p) →
    p.Name = some name →
    p.URL = some url →
    (goHasPrefix url ("http://") || goHasPrefix url ("https://")) = true →
    lookupKey s.Methods name = some m →
    (s.RegisterRPC params =
      .ok ((none, some ⟨MethodExistsCode, MethodExistsMsg, none⟩), s.Methods)) ∧
    (∀ ms, s.RegisterRPC params =
        .ok ((none, some ⟨MethodExistsCode, MethodExistsMsg, none⟩), ms) →
      lookupKey ms name = some m) := by
  intro hparse hname hurl hscheme hlook
  obtain ⟨pn, pu⟩ := p
  replace hname : pn = some name := hname
  replace hurl : pu = some url := hurl
  subst hname hurl
  have hmain : s.RegisterRPC params =
      .ok ((none, some ⟨MethodExistsCode, MethodExistsMsg, none⟩), s.Methods) := by
    simp only [Server.RegisterRPC, hparse, hscheme, not_true, if_false, hlook,
      Option.isSome_some, if_true, Bool.not_true]
  refine ⟨hmain, ?_⟩
  intro ms hms
  rw [hmain] at hms
  have : s.Methods = ms := congrArg Prod.snd (GoResult.ok.inj hms)
  rw [← this]
  exact hlook

/-- C5 witness: on a server where `"add"` is registered, registering
`"add"` again (positionally, with a valid URL) answers Method Exists
and the lookup still answers the original entry. -/
theorem C5_witness :
    (srvAdd.RegisterRPC (.arr [.str ("add"), .str ("http://other")]) =
      .ok ((none, some ⟨MethodExistsCode, MethodExistsMsg, none⟩), srvAdd.Methods)) ∧
    lookupKey srvAdd.Methods ("add") = some ⟨"http://orig", none⟩ :=
  ⟨(C5_RegisterRPC_duplicate srvAdd (.arr [.str ("add"), .str ("http://other")])
      ⟨some ("add"), some ("http://other")⟩ ("add") ("http://other")
      ⟨"http://orig", none⟩ rfl rfl rfl rfl rfl).1,
   rfl⟩

/-- C6: `ParseParams` first attempts the direct decode into the
named-field shape; only when that fails does it re-decode the same
bytes as an array of untyped values and pass them to `FromPositional`;
a failure of the array decode or of `FromPositional` yields an Invalid
Params error (-32602) whose data carries that (most specific) failure's
diagnostic string; in every other case no error is returned. -/
theorem C6_ParseParams_contract (P : Type) (pt : Params P) (params : JValue) :
    (∀ p, pt.unmarshal params = .ok p →
      ParseParams pt params = .ok (.ok p)) ∧
    (∀ e1 e2, pt.unmarshal params = .error e1 →
      unmarshalPositional params = .error e2 →
      ParseParams pt params =
        .ok (.error ⟨InvalidParamsCode, InvalidParamsMsg, some (.str e2)⟩)) ∧
    (∀ e1 xs e3, pt.unmarshal params = .error e1 →
      unmarshalPositional params = .ok xs →
      pt.FromPositional xs = .err e3 →
      ParseParams pt params =
        .ok (.error ⟨InvalidParamsCode, InvalidParamsMsg, some (.str e3)⟩)) ∧
    (∀ e1 xs p, pt.unmarshal params = .error e1 →
      unmarshalPositional params = .ok xs →
      pt.FromPositional xs = .ok p →
      ParseParams pt params = .ok (.ok p)) := by
  refine ⟨?_, ?_, ?_, ?_⟩
  · intro p hu
    simp only [ParseParams, hu]
  · intro e1 e2 hu hpos
    simp only [ParseParams, hu, hpos]
  · intro e1 xs e3 hu hpos hfp
    simp only [ParseParams, hu, hpos, hfp]
  · intro e1 xs p hu hpos hfp
    simp only [ParseParams, hu, hpos, hfp]

/-- C6 witness: the four contract cases at concrete inputs of the
`RegisterRPCParams` instance — a named object decodes directly; a
string payload fails both decodes and reports the array-decode
diagnostic; a one-element array reaches `FromPositional` and reports
its diagnostic; a two-string array succeeds positionally. -/
theorem C6_witness :
    (ParseParams registerParams (.obj [("Name", .str ("a")), ("URL", .str ("http://x"))]) =
      .ok (.ok ⟨some ("a"), some ("http://x")⟩)) ∧
    (ParseParams registerParams (.str ("zap")) =
      .ok (.error ⟨InvalidParamsCode, InvalidParamsMsg,
        some (.str ("json: cannot unmarshal string into Go value of type []interface \x7b\x7d"))⟩)) ∧
    (ParseParams registerParams (.arr [.str ("a")]) =
      .ok (.error ⟨InvalidParamsCode, InvalidParamsMsg,
        some (.str ("register requires name and url parameters"))⟩)) ∧
    (ParseParams registerParams (.arr [.str ("a"), .str ("http://x")]) =
      .ok (.ok ⟨some ("a"), some ("http://x")⟩)) :=
  ⟨(C6_ParseParams_contract RegisterRPCParams registerParams _).1
      ⟨some ("a"), some ("http://x")⟩ rfl,
   (C6_ParseParams_contract RegisterRPCParams registerParams _).2.1 _ _ rfl rfl,
   (C6_ParseParams_contract RegisterRPCParams registerParams _).2.2.1 _ _ _ rfl rfl rfl,
   (C6_ParseParams_contract RegisterRPCParams registerParams _).2.2.2 _ _ _ rfl rfl rfl⟩

/-- C7: an empty batch makes `HandleBatch` write exactly one top-level
Invalid Request response (-32600, data "Batch must contain at least one
request", id null) — a single object blob (its first byte is `{`), not
a JSON array of responses. -/
theorem C7_HandleBatch_empty (s : Server) (net : NetOracle) :
    (s.HandleBatch net [] =
      [NewResponse none (some ⟨InvalidRequestCode, InvalidRequestMsg,
        some (.str ("Batch must contain at least one request"))⟩) none true]) ∧
    (List.head? (NewResponse none (some ⟨InvalidRequestCode, InvalidRequestMsg,
      some (.str ("Batch must contain at least one request"))⟩) none true) =
      some '\x7b') ∧
    '\x7b' ≠ '[' := by
  refine ⟨rfl, rfl, by decide⟩

/-- The joining loop of `MakeResponse` is the comma-intercalation of
the member blobs. -/
theorem makeResponseAux_eq_intercalate : (rs : List (List Char)) →
    Batch.MakeResponseAux rs = List.intercalate [','] rs
  | [] => by simp [Batch.MakeResponseAux, List.intercalate]
  | [b] => by simp [Batch.MakeResponseAux, List.intercalate, List.intersperse]
  | b :: c :: rest => by
    rw [Batch.MakeResponseAux, makeResponseAux_eq_intercalate (c :: rest)]
    simp [List.intercalate, List.intersperse]

/-- C8: for a non-empty batch, `Batch.MakeResponse` renders `[`, the
member blobs joined by `,`, then `]` and a terminating newline; and
every member blob produced with the newline flag off (as `HandleBatch`
renders batch members) is newline-free. -/
theorem C8_MakeResponse_format (rs : List (List Char)) (h : rs ≠ []) :
    (Batch.MakeResponse ⟨rs⟩ = '[' :: (List.intercalate [','] rs ++ [']', '\n'])) ∧
    (∀ (result : Option JValue) (errObj : Option ErrorObject) (id : Option JValue),
      '\n' ∉ NewResponse result errObj id false) := by
  constructor
  · rw [Batch.MakeResponse, makeResponseAux_eq_intercalate]
    rfl
  · intro result errObj id hmem
    unfold NewResponse at hmem
    rcases List.mem_append.mp hmem with h1 | h2
    · exact serResponseObject_no_nl result errObj id h1
    · simp at h2

/-- C8 witness: the rendered form of a concrete two-member batch, and
newline-freeness of a concrete newline-flag-off response blob. -/
theorem C8_witness :
    (Batch.MakeResponse ⟨[['a'], ['b']]⟩ =
      '[' :: (List.intercalate [','] [['a'], ['b']] ++ [']', '\n'])) ∧
    '\n' ∉ NewResponse none (some ⟨MethodNotFoundCode, MethodNotFoundMsg, none⟩)
      (some (.str ("1"))) false :=
  ⟨(C8_MakeResponse_format [['a'], ['b']] (by simp)).1,
   (C8_MakeResponse_format [['a'], ['b']] (by simp)).2 none
     (some ⟨MethodNotFoundCode, MethodNotFoundMsg, none⟩) (some (.str ("1")))⟩

/-- C9: when a proxied `Server.Call` receives a syntactically valid
response from the remote endpoint in which `result` is null/absent and
`error` is also absent, it does not propagate the null result: it falls
through to the final return and answers Internal Error (-32603) with
data "Unable to call provided method". -/
theorem C9_proxy_null_result (s : Server) (net : NetOracle) (nm : String)
    (params : JValue) (url : String) (resp : RemoteResponse) :
    lookupKey s.Methods nm = some ⟨url, none⟩ →
    url ≠ "" →
    net url ⟨"2.0", .str nm, params, some (.str ("1"))⟩ = .ok resp →
    resp.Result = none →
    resp.Error = none →
    s.Call net (.str nm) params =
      .ok (none, some ⟨InternalErrorCode, InternalErrorMsg,
        some (.str ("Unable to call provided method"))⟩) := by
  intro hlook hurl hnet hres herr
  obtain ⟨rv, re, rr, rid⟩ := resp
  replace hres : rr = none := hres
  replace herr : re = none := herr
  subst hres herr
  simp only [Server.Call, hlook, if_pos hurl, hnet]

/-- C9 witness: a concrete proxy entry whose remote answers result null
and no error member ends in the Internal Error fallthrough. -/
theorem C9_witness :
    srvProxy.Call netNullResult (.str ("m")) .null =
      .ok (none, some ⟨InternalErrorCode, InternalErrorMsg,
        some (.str ("Unable to call provided method"))⟩) :=
  C9_proxy_null_result srvProxy netNullResult ("m") .null ("http://x")
    ⟨"2.0", none, none, some (.str ("1"))⟩ rfl (by decide) rfl rfl rfl

/-- C10: `RegisterRPCParams.FromPositional` reports only a wrong
element count as an error; a two-element list is type-asserted to
strings with no check, so two strings succeed and any non-string
element is a runtime panic rather than an Invalid Params error — and
the panic propagates through a `jrpc2.register` invocation
(`RegisterRPC`) with such a positional parameter array. -/
theorem C10_FromPositional_panics (xs : List JValue) :
    (xs.length ≠ 2 →
      RegisterRPCParams.FromPositional xs =
        .err ("register requires name and url parameters")) ∧
    (∀ n u, xs = [JValue.str n, JValue.str u] →
      RegisterRPCParams.FromPositional xs = .ok ⟨some n, some u⟩) ∧
    (xs.length = 2 → (∀ n u, xs ≠ [JValue.str n, JValue.str u]) →
      (RegisterRPCParams.FromPositional xs).isPanics = true) ∧
    (srvEmpty.RegisterRPC (.arr [.str ("a"), .num 5])).isPanics = true := by
  refine ⟨?_, ?_, ?_, rfl⟩
  · intro hlen
    simp only [RegisterRPCParams.FromPositional, if_pos hlen]
  · intro n u hxs
    subst hxs
    rfl
  · intro hlen hne
    rcases xs with _ | ⟨x, _ | ⟨y, _ | ⟨z, zs⟩⟩⟩
    · exact absurd hlen (by decide)
    · exact absurd hlen (by simp)
    · cases x <;> cases y <;>
        first
        | exact absurd rfl (hne _ _)
        | rfl
    · exact absurd hlen (by simp)

/-- C10 witness: a wrong count is an error, two strings succeed, and a
two-element list with a non-string second element panics. -/
theorem C10_witness :
    (RegisterRPCParams.FromPositional [] =
      .err ("register requires name and url parameters")) ∧
    (RegisterRPCParams.FromPositional [.str ("a"), .str ("b")] =
      .ok ⟨some ("a"), some ("b")⟩) ∧
    (RegisterRPCParams.FromPositional [.str ("a"), .num 5]).isPanics = true :=
  ⟨(C10_FromPositional_panics []).1 (by decide),
   (C10_FromPositional_panics [.str ("a"), .str ("b")]).2.1 ("a") ("b") rfl,
   (C10_FromPositional_panics [.str ("a"), .num 5]).2.2.1 rfl
     (fun n u h => by
       injection h with h1 h2
       injection h2 with h3 h4
       exact JValue.noConfusion h3)⟩

/-- C7 witness: the empty-batch write at a concrete server. -/
theorem C7_witness :
    srvEmpty.HandleBatch netDown [] =
      [NewResponse none (some ⟨InvalidRequestCode, InvalidRequestMsg,
        some (.str ("Batch must contain at least one request"))⟩) none true] :=
  (C7_HandleBatch_empty srvEmpty netDown).1

end Jrpc2
